import Mathlib

/-!
Verification of the ProgPoW light-verification hashing core
(`ethash/src/progpow.rs`) and of the EIP-191 version-tag decoder
(`rpc/src/v1/types/eip191.rs`), as a shallow embedding in Lean.

Machine integers (`u32`, `u64`) are modelled as `Nat` with explicit
truncation (`% 2^32`, `% 2^64`) wherever the Rust code wraps; fixed-size
arrays are modelled as functions out of `Fin n`; in-place mutation is
modelled by returning the updated value; the one fallible operation
(`%` by a runtime-variable divisor, which panics in Rust when the divisor
is zero) is modelled with `Option`.
-/

namespace ProgPow

/-- Truncation to 32 bits: models a Rust `u32` value or an `as u32` cast. -/
def u32 (x : Nat) : Nat := x % 4294967296

/-- Modelled from the spec: `ETHASH_ACCESSES = 64` (declared in the `shared`
module of the repository, which is not among the given source files). -/
def ETHASH_ACCESSES : Nat := 64

/-- Modelled from the spec: `ETHASH_EPOCH_LENGTH = 30000` (declared in the
`shared` module, not among the given source files). -/
def ETHASH_EPOCH_LENGTH : Nat := 30000

/-- Modelled from the spec: `ETHASH_MIX_BYTES = 128` (declared in the
`shared` module, not among the given source files). -/
def ETHASH_MIX_BYTES : Nat := 128

/-- Modelled from the spec: `FNV_PRIME = 0x01000193` (declared in the
`compute` module, not among the given source files). -/
def FNV_PRIME : Nat := 0x01000193

/-- progpow.rs line 22. -/
def PROGPOW_LANES : Nat := 32

/-- progpow.rs line 23. -/
def PROGPOW_REGS : Nat := 16

/-- progpow.rs line 24. -/
def PROGPOW_CACHE_WORDS : Nat := 4 * 1024

/-- progpow.rs line 25. -/
def PROGPOW_CNT_MEM : Nat := ETHASH_ACCESSES

/-- progpow.rs line 26. -/
def PROGPOW_CNT_CACHE : Nat := 8

/-- progpow.rs line 27. -/
def PROGPOW_CNT_MATH : Nat := 8

/-- progpow.rs line 28. -/
def PROGPOW_MIX_BYTES : Nat := 2 * ETHASH_MIX_BYTES

/-- progpow.rs line 30. -/
def FNV_HASH : Nat := 0x811c9dc5

/-- fnv1a_hash (progpow.rs lines 33-36): `*h = (*h ^ d).wrapping_mul(FNV_PRIME)`
and the updated accumulator is returned.  The `&mut` accumulator is modelled
by chaining the returned value into the next call. -/
def fnv1a_hash (h d : Nat) : Nat := u32 ((h ^^^ d) * FNV_PRIME)

/-- Kiss99 PRNG state (progpow.rs lines 38-43). -/
structure Kiss99 where
  z : Nat
  w : Nat
  jsr : Nat
  jcong : Nat
deriving DecidableEq

/-- Kiss99::next_u32 (progpow.rs lines 50-60), returning the drawn value and
the advanced state. -/
def kissNext (s : Kiss99) : Nat × Kiss99 :=
  let z := u32 (36969 * (s.z &&& 65535) + (s.z >>> 16))
  let w := u32 (18000 * (s.w &&& 65535) + (s.w >>> 16))
  let mwc := u32 (u32 (z <<< 16) + w)
  let jsr1 := s.jsr ^^^ u32 (s.jsr <<< 17)
  let jsr2 := jsr1 ^^^ (jsr1 >>> 13)
  let jsr := jsr2 ^^^ u32 (jsr2 <<< 5)
  let jcong := u32 (69069 * s.jcong + 1234567)
  (u32 ((mwc ^^^ jcong) + jsr), Kiss99.mk z w jsr jcong)

/-- The state-advance map of Kiss99 (second component of `kissNext`). -/
def kissState (s : Kiss99) : Kiss99 := (kissNext s).2

/-- Pointwise update of a `Fin`-indexed array, modelling `a[k] = v`. -/
def updFn {n : Nat} {α : Type} (f : Fin n → α) (k : Fin n) (v : α) : Fin n → α :=
  fun j => if j = k then v else f j

/-- u32 `rotate_left`: the rotation amount is taken mod 32, as in Rust. -/
def rotl32 (a n : Nat) : Nat :=
  u32 ((u32 a <<< (n % 32)) ||| (u32 a >>> (32 - n % 32)))

/-- u32 `rotate_right`: the rotation amount is taken mod 32, as in Rust. -/
def rotr32 (a n : Nat) : Nat :=
  u32 ((u32 a >>> (n % 32)) ||| (u32 a <<< (32 - n % 32)))

/-- u32 `leading_zeros`. -/
def clz32 (a : Nat) : Nat := if u32 a = 0 then 32 else 31 - Nat.log2 (u32 a)

/-- Bit-counting helper, structurally recursive on the fuel. -/
def popCountAux : Nat → Nat → Nat
  | 0, _ => 0
  | fuel + 1, n => n % 2 + popCountAux fuel (n / 2)

/-- u32 `count_ones`. -/
def popCount32 (a : Nat) : Nat := popCountAux 32 (u32 a)

/-- merge (progpow.rs lines 109-117); the update of `*a` is modelled by
returning the new value.  The final arm of the Rust `match` on `r % 4` is
`unreachable!()`; `r % 4 < 4`, so the catch-all arm below is never taken. -/
def merge (a b r : Nat) : Nat :=
  match r % 4 with
  | 0 => u32 (u32 (a * 33) + b)
  | 1 => u32 ((a ^^^ b) * 33)
  | 2 => rotl32 a ((r >>> 16) % 32) ^^^ b
  | 3 => rotr32 a ((r >>> 16) % 32) ^^^ b
  | _ + 4 => 0

/-- math (progpow.rs lines 119-134).  The final arm of the Rust `match` on
`r % 11` is `unreachable!()`; `r % 11 < 11`, so the catch-all arm below is
never taken. -/
def math (a b r : Nat) : Nat :=
  match r % 11 with
  | 0 => u32 (a + b)
  | 1 => u32 (a * b)
  | 2 => u32 ((u32 a * u32 b) >>> 32)
  | 3 => min a b
  | 4 => rotl32 a b
  | 5 => rotr32 a b
  | 6 => a &&& b
  | 7 => a ||| b
  | 8 => a ^^^ b
  | 9 => clz32 a + clz32 b
  | 10 => popCount32 a + popCount32 b
  | _ + 11 => 0

/-- fill_mix (progpow.rs lines 63-80): the per-warp seed is expanded to a
per-lane Kiss99 through the threaded FNV accumulator, then 16 successive
draws fill the lane's mix row. -/
def fill_mix (seed : Nat) (lane_id : Nat) : Fin PROGPOW_REGS → Nat :=
  let z := fnv1a_hash FNV_HASH (u32 seed)
  let w := fnv1a_hash z (u32 (seed >>> 32))
  let jsr := fnv1a_hash w lane_id
  let jcong := fnv1a_hash jsr lane_id
  let rnd := Kiss99.mk z w jsr jcong
  ((List.finRange PROGPOW_REGS).foldl
    (fun (acc : (Fin PROGPOW_REGS → Nat) × Kiss99) i =>
      let p := kissNext acc.2
      (updFn acc.1 i p.1, p.2))
    ((fun _ => 0), rnd)).1

/-- `mix_seq.swap(i, j)` on the functional array model. -/
def swapFn {n : Nat} (f : Fin n → Fin n) (i j : Fin n) : Fin n → Fin n :=
  fun k => if k = i then f j else if k = j then f i else f k

/-- One descending Fisher-Yates step (progpow.rs lines 97-100):
`j = next_u32() % (i + 1); mix_seq.swap(i, j)`. -/
def fyStep (st : (Fin PROGPOW_REGS → Fin PROGPOW_REGS) × Kiss99)
    (i : Fin PROGPOW_REGS) : (Fin PROGPOW_REGS → Fin PROGPOW_REGS) × Kiss99 :=
  let p := kissNext st.2
  let j : Fin PROGPOW_REGS :=
    ⟨p.1 % (i.val + 1),
      Nat.lt_of_lt_of_le (Nat.mod_lt _ (Nat.succ_pos _)) (Nat.succ_le_of_lt i.isLt)⟩
  (swapFn st.1 i j, p.2)

/-- progpow_init (progpow.rs lines 82-103): seeds Kiss99 through the threaded
FNV accumulator from `(seed lo, seed hi, seed lo, seed hi)`, then shuffles
`mix_seq = [0, …, 15]` by Fisher-Yates with `i` descending from 15 to 0.
The entries of `mix_seq` are register indices, modelled as `Fin PROGPOW_REGS`;
the same Kiss99 instance is returned for further use by the caller. -/
def progpow_init (seed : Nat) : Kiss99 × (Fin PROGPOW_REGS → Fin PROGPOW_REGS) :=
  let z := fnv1a_hash FNV_HASH (u32 seed)
  let w := fnv1a_hash z (u32 (seed >>> 32))
  let jsr := fnv1a_hash w (u32 seed)
  let jcong := fnv1a_hash jsr (u32 (seed >>> 32))
  let rnd := Kiss99.mk z w jsr jcong
  let r := (List.finRange PROGPOW_REGS).reverse.foldl fyStep ((fun i => i), rnd)
  (r.2, r.1)

/-- Pointwise update of a plain function array, modelling `st[k] = v` for the
Keccak state (whose indices are all literal constants below 25). -/
def updN (f : Nat → Nat) (k : Nat) (v : Nat) : Nat → Nat :=
  fun j => if j = k then v else f j

/-- KECCAKF_RNDC (progpow.rs lines 184-189), as a table indexed by the round
number.  The source array has 24 entries and is only ever indexed with
r ≤ 21; the catch-all arm is arbitrary and never consumed. -/
def KECCAKF_RNDC : Nat → Nat
  | 0 => 0x00000001
  | 1 => 0x00008082
  | 2 => 0x0000808a
  | 3 => 0x80008000
  | 4 => 0x0000808b
  | 5 => 0x80000001
  | 6 => 0x80008081
  | 7 => 0x00008009
  | 8 => 0x0000008a
  | 9 => 0x00000088
  | 10 => 0x80008009
  | 11 => 0x8000000a
  | 12 => 0x8000808b
  | 13 => 0x0000008b
  | 14 => 0x00008089
  | 15 => 0x00008003
  | 16 => 0x00008002
  | 17 => 0x00000080
  | 18 => 0x0000800a
  | 19 => 0x8000000a
  | 20 => 0x80008081
  | 21 => 0x00008080
  | 22 => 0x80000001
  | 23 => 0x80008008
  | _ => 0

/-- keccakf_rotc (progpow.rs lines 192-195). -/
def keccakf_rotc : Nat → Nat
  | 0 => 1
  | 1 => 3
  | 2 => 6
  | 3 => 10
  | 4 => 15
  | 5 => 21
  | 6 => 28
  | 7 => 36
  | 8 => 45
  | 9 => 55
  | 10 => 2
  | 11 => 14
  | 12 => 27
  | 13 => 41
  | 14 => 56
  | 15 => 8
  | 16 => 25
  | 17 => 43
  | 18 => 62
  | 19 => 18
  | 20 => 39
  | 21 => 61
  | 22 => 20
  | 23 => 44
  | _ => 0

/-- keccakf_piln (progpow.rs lines 196-199). -/
def keccakf_piln : Nat → Nat
  | 0 => 10
  | 1 => 7
  | 2 => 11
  | 3 => 17
  | 4 => 18
  | 5 => 3
  | 6 => 5
  | 7 => 16
  | 8 => 8
  | 9 => 21
  | 10 => 24
  | 11 => 4
  | 12 => 15
  | 13 => 23
  | 14 => 19
  | 15 => 13
  | 16 => 12
  | 17 => 2
  | 18 => 20
  | 19 => 14
  | 20 => 22
  | 21 => 9
  | 22 => 6
  | 23 => 1
  | _ => 0

/-- Rust `!x` on u32: bitwise complement of the low 32 bits. -/
def u32compl (x : Nat) : Nat := u32 x ^^^ 4294967295

/-- The bc vector of the Theta stage (progpow.rs lines 202-205), pointwise:
`bc[i] = st[i] ^ st[i+5] ^ st[i+10] ^ st[i+15] ^ st[i+20]`. -/
def thetaBc (st : Nat → Nat) : Nat → Nat :=
  fun i => st i ^^^ st (i + 5) ^^^ st (i + 10) ^^^ st (i + 15) ^^^ st (i + 20)

/-- The Theta stage (progpow.rs lines 201-212).  The second source loop xors
`t = bc[(i+4)%5] ^ rotl(bc[(i+1)%5], 1)` into st[j+i] for every j multiple of
five; an index k belongs to column i = k % 5, which gives the pointwise
form below.  Only indices below 25 are ever consumed downstream. -/
def theta (st : Nat → Nat) : Nat → Nat :=
  let bc := thetaBc st
  fun k => st k ^^^ (bc ((k % 5 + 4) % 5) ^^^ rotl32 (bc ((k % 5 + 1) % 5)) 1)

/-- The Rho-Pi stage (progpow.rs lines 214-221): a single chain through the
pi index path, rotating by the rho offsets, with `t` carrying the value of
the previous target before it was overwritten. -/
def rhoPi (st : Nat → Nat) : Nat → Nat :=
  ((List.range 24).foldl
    (fun (acc : (Nat → Nat) × Nat) i =>
      let j := keccakf_piln i
      let bc0 := acc.1 j
      (updN acc.1 j (rotl32 acc.2 (keccakf_rotc i)), bc0))
    (st, st 1)).1

/-- The Chi stage (progpow.rs lines 223-231): for each row of five, bc first
snapshots the row, then `st[j+i] ^= !bc[(i+1)%5] & bc[(i+2)%5]`.  An index k
sits in the row starting at 5 * (k / 5) at position k % 5, which gives the
pointwise form below. -/
def chi (st : Nat → Nat) : Nat → Nat :=
  fun k =>
    st k ^^^
      (u32compl (st (5 * (k / 5) + (k % 5 + 1) % 5)) &&&
        st (5 * (k / 5) + (k % 5 + 2) % 5))

/-- The Iota stage (progpow.rs line 234) with the round constant passed by
value (the table entry has Rust type u32, hence the truncation). -/
def iota (rc : Nat) (st : Nat → Nat) : Nat → Nat := updN st 0 (st 0 ^^^ u32 rc)

/-- keccak_f800_round (progpow.rs lines 191-235) for round constant rc. -/
def keccak_f800_round (rc : Nat) (st : Nat → Nat) : Nat → Nat :=
  iota rc (chi (rhoPi (theta st)))

/-- The round schedule appearing verbatim in both keccak_f800_short
(progpow.rs lines 254-257) and keccak_f800_long (lines 279-282): rounds
r = 0..20 in a loop, then one more call with r = 21, each reading its
constant from the table rndc. -/
def keccakRounds (rndc : Nat → Nat) (st : Nat → Nat) : Nat → Nat :=
  keccak_f800_round (rndc 21)
    ((List.range 21).foldl (fun s r => keccak_f800_round (rndc r) s) st)

/-- The state preparation appearing verbatim in both keccak_f800_short
(progpow.rs lines 238-252) and keccak_f800_long (lines 263-277): st[0..8]
are the little-endian header-hash words, st[8..10] the nonce halves,
st[10..14] the first four result words, everything else zero.  Each stored
value is truncated to u32 as by the Rust types. -/
def keccakPrep (header_hash : Fin 32 → Nat) (nonce : Nat) (result : Fin 8 → Nat) :
    Nat → Nat :=
  let st1 := (List.finRange 8).foldl
    (fun s i => updN s i.val
      (u32 (header_hash ⟨4 * i.val, by have := i.isLt; omega⟩ +
        (header_hash ⟨4 * i.val + 1, by have := i.isLt; omega⟩ <<< 8) +
        (header_hash ⟨4 * i.val + 2, by have := i.isLt; omega⟩ <<< 16) +
        (header_hash ⟨4 * i.val + 3, by have := i.isLt; omega⟩ <<< 24))))
    (fun _ => 0)
  let st2 := updN (updN st1 8 (u32 nonce)) 9 (u32 (nonce >>> 32))
  (List.finRange 4).foldl
    (fun s i => updN s (10 + i.val) (u32 (result ⟨i.val, by have := i.isLt; omega⟩)))
    st2

/-- keccak_f800_short (progpow.rs lines 237-260):
`(st[0] as u64) << 32 | st[1] as u64` after the 22 rounds. -/
def keccak_f800_short (header_hash : Fin 32 → Nat) (nonce : Nat)
    (result : Fin 8 → Nat) : Nat :=
  let st := keccakRounds KECCAKF_RNDC (keccakPrep header_hash nonce result)
  (st 0 <<< 32) ||| st 1

/-- Little-endian byte serialisation of eight u32 words: the transmute of
`[u32; 8]` to 32 bytes on a little-endian host (progpow.rs lines 286, 345). -/
def leBytes32 (words : Fin 8 → Nat) : Fin 32 → Nat :=
  fun j => (words ⟨j.val / 4, by have := j.isLt; omega⟩ >>> (8 * (j.val % 4))) % 256

/-- keccak_f800_long (progpow.rs lines 262-287): the first eight state words
after the 22 rounds, serialised as little-endian bytes. -/
def keccak_f800_long (header_hash : Fin 32 → Nat) (nonce : Nat)
    (result : Fin 8 → Nat) : Fin 32 → Nat :=
  let st := keccakRounds KECCAKF_RNDC (keccakPrep header_hash nonce result)
  leBytes32 (fun k => st k.val)

/-- The per-lane mutable state inside one outer iteration of progpow_loop:
the lane's mix row, the Kiss99 instance and mix_seq_cnt. -/
structure LaneState where
  row : Fin PROGPOW_REGS → Nat
  rnd : Kiss99
  cnt : Nat

/-- The cached-memory-access step (progpow.rs lines 163-169): one Kiss99 draw
selects the source register, the c_dag word at `mix[l][src] % CACHE_WORDS` is
fetched, the destination register comes from mix_seq (consuming mix_seq_cnt,
no draw), and one further draw is the merge selector. -/
def cacheStep (cDag : Fin PROGPOW_CACHE_WORDS → Nat)
    (mix_seq : Fin PROGPOW_REGS → Fin PROGPOW_REGS) (st : LaneState) : LaneState :=
  let p := kissNext st.rnd
  let src : Fin PROGPOW_REGS := ⟨p.1 % PROGPOW_REGS, Nat.mod_lt _ (by decide)⟩
  let offset : Fin PROGPOW_CACHE_WORDS :=
    ⟨st.row src % PROGPOW_CACHE_WORDS, Nat.mod_lt _ (by decide)⟩
  let data32 := cDag offset
  let dst := mix_seq ⟨st.cnt % PROGPOW_REGS, Nat.mod_lt _ (by decide)⟩
  let q := kissNext p.2
  ⟨updFn st.row dst (merge (st.row dst) data32 q.1), q.2, st.cnt + 1⟩

/-- The random-math step (progpow.rs lines 170-174): two draws select the
source registers, a third draw is the math selector, the destination register
comes from mix_seq (consuming mix_seq_cnt, no draw), and a fourth draw is the
merge selector. -/
def mathStep (mix_seq : Fin PROGPOW_REGS → Fin PROGPOW_REGS) (st : LaneState) :
    LaneState :=
  let p1 := kissNext st.rnd
  let src1 : Fin PROGPOW_REGS := ⟨p1.1 % PROGPOW_REGS, Nat.mod_lt _ (by decide)⟩
  let p2 := kissNext p1.2
  let src2 : Fin PROGPOW_REGS := ⟨p2.1 % PROGPOW_REGS, Nat.mod_lt _ (by decide)⟩
  let p3 := kissNext p2.2
  let data32 := math (st.row src1) (st.row src2) p3.1
  let dst := mix_seq ⟨st.cnt % PROGPOW_REGS, Nat.mod_lt _ (by decide)⟩
  let p4 := kissNext p3.2
  ⟨updFn st.row dst (merge (st.row dst) data32 p4.1), p4.2, st.cnt + 1⟩

/-- One iteration of the inner loop (progpow.rs lines 162-175): the cache
step when i < CNT_CACHE, then the math step when i < CNT_MATH. -/
def laneIter (cDag : Fin PROGPOW_CACHE_WORDS → Nat)
    (mix_seq : Fin PROGPOW_REGS → Fin PROGPOW_REGS) (st : LaneState) (i : Nat) :
    LaneState :=
  let st1 := if i < PROGPOW_CNT_CACHE then cacheStep cDag mix_seq st else st
  if i < PROGPOW_CNT_MATH then mathStep mix_seq st1 else st1

/-- The per-lane body of one outer iteration of progpow_loop (progpow.rs
lines 150-180), given the lane's 64-bit global load: fresh (rnd, mix_seq)
from progpow_init with mix_seq_cnt = 0, the max(CNT_CACHE, CNT_MATH) inner
iterations, then the two final merges consuming data64 — the low half into
register 0 (a fixed destination, no mix_seq draw) and the high half into a
mix_seq destination. -/
def progpowLoopLane (seed data64 : Nat) (cDag : Fin PROGPOW_CACHE_WORDS → Nat)
    (row : Fin PROGPOW_REGS → Nat) : LaneState :=
  let ir := progpow_init seed
  let st1 := (List.range (Nat.max PROGPOW_CNT_CACHE PROGPOW_CNT_MATH)).foldl
    (laneIter cDag ir.2) ⟨row, ir.1, 0⟩
  let q1 := kissNext st1.rnd
  let reg0 : Fin PROGPOW_REGS := ⟨0, by decide⟩
  let row1 := updFn st1.row reg0 (merge (st1.row reg0) (u32 data64) q1.1)
  let dst := ir.2 ⟨st1.cnt % PROGPOW_REGS, Nat.mod_lt _ (by decide)⟩
  let q2 := kissNext q1.2
  ⟨updFn row1 dst (merge (row1 dst) (u32 (data64 >>> 32)) q2.1), q2.2, st1.cnt + 1⟩

/-- Mix matrix: 32 lanes of 16 registers. -/
abbrev Mix := Fin PROGPOW_LANES → Fin PROGPOW_REGS → Nat

/-- progpow_loop (progpow.rs lines 136-182).  In Rust the expression
`mix[loopp % LANES][0] as usize % data_size` panics when data_size = 0;
that failure is modelled by `none`.  Every call site passes c_dag by mutable
reference but the function only reads it. -/
def progpow_loop (seed loopp : Nat) (mix : Mix)
    (cDag : Fin PROGPOW_CACHE_WORDS → Nat) (lookup : Nat → Nat)
    (data_size : Nat) : Option Mix :=
  if data_size = 0 then none else
  let offset_g :=
    mix ⟨loopp % PROGPOW_LANES, Nat.mod_lt _ (by decide)⟩ ⟨0, by decide⟩ % data_size *
      PROGPOW_LANES
  some ((List.finRange PROGPOW_LANES).foldl
    (fun m l =>
      let data64 :=
        (lookup (2 * (offset_g + l.val) + 1) <<< 32) ||| lookup (2 * (offset_g + l.val))
      updFn m l (progpowLoopLane seed data64 cDag (m l)).row)
    mix)

/-- One step of the c_dag priming loop (progpow.rs lines 307-310) at even
index i = 2 * k: `c_dag[i] = lookup(2 * i); c_dag[i + 1] = lookup(2 * i + 1)`.
The loop only visits i with i + 1 < CACHE_WORDS; the guard records that
bound (it always holds at the call sites). -/
def cDagStep (lookup : Nat → Nat) (k : Nat) (f : Fin PROGPOW_CACHE_WORDS → Nat) :
    Fin PROGPOW_CACHE_WORDS → Nat :=
  if h : 2 * k + 1 < PROGPOW_CACHE_WORDS then
    updFn (updFn f ⟨2 * k, by omega⟩ (lookup (2 * (2 * k))))
      ⟨2 * k + 1, h⟩ (lookup (2 * (2 * k) + 1))
  else f

/-- The c_dag array after the first n steps of the priming loop, starting
from the zero-initialised array (progpow.rs line 299). -/
def cDagAux (lookup : Nat → Nat) : Nat → Fin PROGPOW_CACHE_WORDS → Nat
  | 0 => fun _ => 0
  | n + 1 => cDagStep lookup n (cDagAux lookup n)

/-- The primed c_dag (progpow.rs lines 307-310): the loop
`for i in (0..PROGPOW_CACHE_WORDS).step_by(2)` performs CACHE_WORDS / 2
steps with i = 2 * k. -/
def cDagPrime (lookup : Nat → Nat) : Fin PROGPOW_CACHE_WORDS → Nat :=
  cDagAux lookup (PROGPOW_CACHE_WORDS / 2)

/-- The main loop of progpow_light (progpow.rs lines 319-328): the remaining
iterations starting at loop index i, propagating the failure of any
progpow_loop call. -/
def runLoopsFrom (seed : Nat) (cDag : Fin PROGPOW_CACHE_WORDS → Nat)
    (lookup : Nat → Nat) (data_size : Nat) : Nat → Nat → Mix → Option Mix
  | _, 0, m => some m
  | i, n + 1, m =>
    match progpow_loop seed i m cDag lookup data_size with
    | none => none
    | some m2 => runLoopsFrom seed cDag lookup data_size (i + 1) n m2

/-- The lane reduction (progpow.rs lines 330-335): each lane's sixteen
registers FNV-1a-accumulated from FNV_HASH. -/
def laneResults (mix : Mix) : Fin PROGPOW_LANES → Nat :=
  fun l => (List.finRange PROGPOW_REGS).foldl (fun h i => fnv1a_hash h (mix l i)) FNV_HASH

/-- The lane-to-result fold (progpow.rs lines 338-341): result starts as
[FNV_HASH; 8] and lane l is accumulated into entry l % 8. -/
def foldLanes (lr : Fin PROGPOW_LANES → Nat) : Fin 8 → Nat :=
  (List.finRange PROGPOW_LANES).foldl
    (fun res l =>
      let k : Fin 8 := ⟨l.val % 8, Nat.mod_lt _ (by decide)⟩
      updFn res k (fnv1a_hash (res k) (lr l)))
    (fun _ => FNV_HASH)

/-- progpow_light (progpow.rs lines 289-348).  The `lookup` closure of the
source (lines 302-305) reads words of the virtual DAG through
`calculate_dag_item`, which lives in the `compute` module outside the given
sources; per the spec it is a pure total word lookup, so it is taken here as
a function parameter.  The returned pair is (digest bytes, result bytes),
both little-endian.  `none` models the Rust panic on `% data_size` inside
progpow_loop when `data_size = size / PROGPOW_MIX_BYTES` is zero. -/
def progpow_light (header_hash : Fin 32 → Nat) (nonce size block_number : Nat)
    (lookup : Nat → Nat) : Option ((Fin 32 → Nat) × (Fin 32 → Nat)) :=
  let cDag := cDagPrime lookup
  let seed := keccak_f800_short header_hash nonce (fun _ => 0)
  let mix0 : Mix := fun l => fill_mix seed l.val
  let block_number_rounded := block_number / ETHASH_EPOCH_LENGTH * ETHASH_EPOCH_LENGTH
  match runLoopsFrom block_number_rounded cDag lookup (size / PROGPOW_MIX_BYTES) 0
      PROGPOW_CNT_MEM mix0 with
  | none => none
  | some mixF =>
    let result := foldLanes (laneResults mixF)
    some (keccak_f800_long header_hash seed result, leBytes32 result)

/-- progpow_light with the Keccak-derived seed and the rounded block number
made explicit parameters: `seed` fills every lane's initial mix row and is
the nonce argument of the final keccak_f800_long call, while `epoch_start`
is the seed argument of every progpow_loop call.  The original block nonce
does not occur. -/
def progpowLightWithSeed (header_hash : Fin 32 → Nat) (seed epoch_start size : Nat)
    (lookup : Nat → Nat) : Option ((Fin 32 → Nat) × (Fin 32 → Nat)) :=
  let cDag := cDagPrime lookup
  let mix0 : Mix := fun l => fill_mix seed l.val
  match runLoopsFrom epoch_start cDag lookup (size / PROGPOW_MIX_BYTES) 0
      PROGPOW_CNT_MEM mix0 with
  | none => none
  | some mixF =>
    let result := foldLanes (laneResults mixF)
    some (keccak_f800_long header_hash seed result, leBytes32 result)

end ProgPow

namespace Eip191

/-- EIP191Version (eip191.rs lines 22-26). -/
inductive EIP191Version where
  | StructuredData
  | PersonalMessage
  | WithValidator
deriving DecidableEq

/-- The string-to-tag decoding of EIP191Version::deserialize (eip191.rs
lines 41-48): the match on the deserialized string, with the serde error
modelled as `Except.error` carrying the formatted message (the source wraps
the offending string in single quotes, omitted here). -/
def deserializeVersion (s : String) : Except String EIP191Version :=
  if s = "0x00" then Except.ok EIP191Version.WithValidator
  else if s = "0x01" then Except.ok EIP191Version.StructuredData
  else if s = "0x45" then Except.ok EIP191Version.PersonalMessage
  else Except.error ("Invalid byte version " ++ s)

end Eip191

namespace ProgPow

/-- A round-constant table that agrees with KECCAKF_RNDC strictly below index
22 but differs at 22 and 23 (used to witness that those entries are unused). -/
def rndcAlt : Nat → Nat := fun r => if r < 22 then KECCAKF_RNDC r else 7777

end ProgPow

section Theorems

open ProgPow

/-- C8: for every pair of values h and d, the FNV-1a step returns — and, via
the threading of the `&mut` accumulator, stores — (h XOR d) * FNV_PRIME in
wrapping u32 arithmetic; in particular
fnv1a(FNV_OFFSET, 0) = FNV_OFFSET * FNV_PRIME mod 2^32. -/
theorem C8_fnv1a_contract :
    (∀ h d : Nat, fnv1a_hash h d = ((h ^^^ d) * FNV_PRIME) % 2 ^ 32) ∧
    fnv1a_hash FNV_HASH 0 = FNV_HASH * FNV_PRIME % 2 ^ 32 := by
  constructor
  · intro h d
    rfl
  · show u32 ((FNV_HASH ^^^ 0) * FNV_PRIME) = _
    rw [Nat.xor_zero]
    rfl

/-- C9: deserializing an EIP191Version succeeds for exactly three strings —
"0x00" gives WithValidator, "0x01" gives StructuredData, "0x45" gives
PersonalMessage — and every other string yields a decoding error. -/
theorem C9_eip191_deserialize :
    Eip191.deserializeVersion "0x00" = Except.ok Eip191.EIP191Version.WithValidator ∧
    Eip191.deserializeVersion "0x01" = Except.ok Eip191.EIP191Version.StructuredData ∧
    Eip191.deserializeVersion "0x45" = Except.ok Eip191.EIP191Version.PersonalMessage ∧
    ∀ s : String, s ≠ "0x00" → s ≠ "0x01" → s ≠ "0x45" →
      Eip191.deserializeVersion s = Except.error ("Invalid byte version " ++ s) := by
  refine ⟨rfl, rfl, rfl, ?_⟩
  intro s h0 h1 h2
  simp [Eip191.deserializeVersion, h0, h1, h2]

/-- Witness for C9 at the concrete rejected string "0x44". -/
theorem C9_eip191_deserialize_witness :
    ("0x44" ≠ "0x00" ∧ "0x44" ≠ "0x01" ∧ "0x44" ≠ "0x45") ∧
    Eip191.deserializeVersion "0x44" = Except.error ("Invalid byte version " ++ "0x44") :=
  ⟨by refine ⟨?_, ?_, ?_⟩ <;> decide,
    C9_eip191_deserialize.2.2.2 "0x44" (by decide) (by decide) (by decide)⟩

/-- C6: in every math step, the Kiss99 generator is consumed in the order
src1 draw, src2 draw, math selector draw, then — after the destination
register is read from mix_seq without a draw — the merge selector draw: the
four values are the outputs of four successive generator states, the
returned generator state has advanced exactly four times, and mix_seq_cnt
has advanced exactly once. -/
theorem C6_mathStep_draw_order :
    ∀ (mix_seq : Fin PROGPOW_REGS → Fin PROGPOW_REGS) (st : LaneState),
      mathStep mix_seq st =
        { row :=
            updFn st.row (mix_seq ⟨st.cnt % PROGPOW_REGS, Nat.mod_lt _ (by decide)⟩)
              (merge
                (st.row (mix_seq ⟨st.cnt % PROGPOW_REGS, Nat.mod_lt _ (by decide)⟩))
                (math
                  (st.row ⟨(kissNext st.rnd).1 % PROGPOW_REGS, Nat.mod_lt _ (by decide)⟩)
                  (st.row ⟨(kissNext (kissState st.rnd)).1 % PROGPOW_REGS,
                    Nat.mod_lt _ (by decide)⟩)
                  (kissNext (kissState^[2] st.rnd)).1)
                (kissNext (kissState^[3] st.rnd)).1),
          rnd := kissState^[4] st.rnd,
          cnt := st.cnt + 1 } := by
  intro mix_seq st
  show mathStep mix_seq st = _
  simp only [Function.iterate_succ_apply, Function.iterate_zero_apply]
  rfl

/-- C4: both Keccak functions run exactly 22 rounds — r = 0 through 20 in a
loop and then one more call with r = 21 — consuming only round-constant table
entries 0..21, so any two tables that agree below index 22 produce identical
permutations; keccak_f800_short and keccak_f800_long are exactly that
22-round schedule applied to the shared prepared state. -/
theorem C4_keccak_22_rounds :
    ∀ (rndc rndc2 : Nat → Nat) (st : Nat → Nat) (hh : Fin 32 → Nat) (nonce : Nat)
      (res : Fin 8 → Nat),
      (keccakRounds rndc st =
        (List.range 22).foldl (fun s r => keccak_f800_round (rndc r) s) st) ∧
      ((∀ r, r < 22 → rndc r = rndc2 r) →
        keccakRounds rndc st = keccakRounds rndc2 st) ∧
      (keccak_f800_short hh nonce res =
        (keccakRounds KECCAKF_RNDC (keccakPrep hh nonce res) 0 <<< 32) |||
          keccakRounds KECCAKF_RNDC (keccakPrep hh nonce res) 1) ∧
      (keccak_f800_long hh nonce res =
        leBytes32 (fun k => keccakRounds KECCAKF_RNDC (keccakPrep hh nonce res) k.val)) := by
  intro rndc rndc2 st hh nonce res
  have h22 : ∀ t : Nat → Nat, keccakRounds t st =
      (List.range 22).foldl (fun s r => keccak_f800_round (t r) s) st := by
    intro t
    rw [show (22 : Nat) = 21 + 1 from rfl, List.range_succ, List.foldl_append]
    rfl
  refine ⟨h22 rndc, ?_, rfl, rfl⟩
  intro hagree
  rw [h22 rndc, h22 rndc2]
  apply List.foldl_ext
  intro s r hr
  rw [hagree r (List.mem_range.mp hr)]

/-- Witness for C4: the two concrete tables KECCAKF_RNDC and rndcAlt agree
below index 22 (and differ at 22), and the resulting permutations coincide. -/
theorem C4_keccak_22_rounds_witness :
    (∀ r, r < 22 → KECCAKF_RNDC r = rndcAlt r) ∧
    keccakRounds KECCAKF_RNDC (fun _ => 0) = keccakRounds rndcAlt (fun _ => 0) :=
  ⟨by decide,
    (C4_keccak_22_rounds KECCAKF_RNDC rndcAlt (fun _ => 0) (fun _ => 0) 0
      (fun _ => 0)).2.1 (by decide)⟩

/-- A swap of two positions is composition with the transposition. -/
theorem swapFn_eq_comp {n : Nat} (f : Fin n → Fin n) (i j : Fin n) :
    swapFn f i j = f ∘ (Equiv.swap i j) := by
  funext k
  simp only [swapFn, Function.comp_apply, Equiv.swap_apply_def]
  split_ifs <;> rfl

/-- Any Fisher-Yates fold of swaps yields the initial array composed with a
permutation of the indices. -/
theorem fyFold_perm (l : List (Fin PROGPOW_REGS)) :
    ∀ (f : Fin PROGPOW_REGS → Fin PROGPOW_REGS) (rnd : Kiss99),
      ∃ e : Equiv.Perm (Fin PROGPOW_REGS),
        (List.foldl fyStep (f, rnd) l).1 = f ∘ e := by
  induction l with
  | nil =>
    intro f rnd
    exact ⟨Equiv.refl _, by funext k; simp⟩
  | cons i t ih =>
    intro f rnd
    obtain ⟨e, he⟩ := ih (fyStep (f, rnd) i).1 (fyStep (f, rnd) i).2
    refine ⟨Equiv.trans e
      (Equiv.swap i ⟨(kissNext rnd).1 % (i.val + 1),
        Nat.lt_of_lt_of_le (Nat.mod_lt _ (Nat.succ_pos _)) (Nat.succ_le_of_lt i.isLt)⟩),
      ?_⟩
    rw [List.foldl_cons, ← Prod.mk.eta (p := fyStep (f, rnd) i), he]
    rw [show (fyStep (f, rnd) i).1 = swapFn f i
      ⟨(kissNext rnd).1 % (i.val + 1),
        Nat.lt_of_lt_of_le (Nat.mod_lt _ (Nat.succ_pos _)) (Nat.succ_le_of_lt i.isLt)⟩
      from rfl]
    rw [swapFn_eq_comp, Equiv.coe_trans]
    rfl

/-- The mix_seq component of progpow_init is a permutation of the indices. -/
theorem progpow_init_perm (seed : Nat) :
    ∃ e : Equiv.Perm (Fin PROGPOW_REGS), (progpow_init seed).2 = ⇑e := by
  obtain ⟨e, he⟩ := fyFold_perm ((List.finRange PROGPOW_REGS).reverse) (fun i => i)
    (Kiss99.mk (fnv1a_hash FNV_HASH (u32 seed))
      (fnv1a_hash (fnv1a_hash FNV_HASH (u32 seed)) (u32 (seed >>> 32)))
      (fnv1a_hash (fnv1a_hash (fnv1a_hash FNV_HASH (u32 seed)) (u32 (seed >>> 32)))
        (u32 seed))
      (fnv1a_hash
        (fnv1a_hash (fnv1a_hash (fnv1a_hash FNV_HASH (u32 seed)) (u32 (seed >>> 32)))
          (u32 seed))
        (u32 (seed >>> 32))))
  refine ⟨e, ?_⟩
  have h2 : (progpow_init seed).2 = (fun i => i) ∘ ⇑e := he
  funext k
  simpa using congrFun h2 k

/-- C7: for every seed, the mix_seq array produced by progpow_init is a
permutation of the register indices 0..15: every destination register is hit
by exactly one entry of the shuffled sequence. -/
theorem C7_mix_seq_permutation :
    ∀ (seed : Nat) (v : Fin PROGPOW_REGS),
      ∃! k : Fin PROGPOW_REGS, (progpow_init seed).2 k = v := by
  intro seed v
  obtain ⟨e, he⟩ := progpow_init_perm seed
  refine ⟨e.symm v, ?_, ?_⟩
  · rw [he]
    simp
  · intro y hy
    rw [he] at hy
    exact e.injective (by simp [hy])

/-- Witness for C7 at seed 0 and target register 3. -/
theorem C7_mix_seq_permutation_witness :
    ∃! k : Fin PROGPOW_REGS, (progpow_init 0).2 k = ⟨3, by decide⟩ :=
  C7_mix_seq_permutation 0 ⟨3, by decide⟩

/-- The c_dag array after n priming steps holds lookup(2 j) at even j < 2 n,
lookup(2 j - 1) at odd j < 2 n, and zero elsewhere. -/
theorem cDagAux_spec (lookup : Nat → Nat) :
    ∀ n, n ≤ PROGPOW_CACHE_WORDS / 2 → ∀ j : Fin PROGPOW_CACHE_WORDS,
      cDagAux lookup n j =
        if j.val < 2 * n then lookup (2 * j.val - j.val % 2) else 0 := by
  intro n
  induction n with
  | zero =>
    intro _ j
    simp [cDagAux]
  | succ m ih =>
    intro hm j
    have hc : PROGPOW_CACHE_WORDS = 4096 := rfl
    have hcw : PROGPOW_CACHE_WORDS / 2 = 2048 := rfl
    have hlt : 2 * m + 1 < PROGPOW_CACHE_WORDS := by omega
    have hmle : m ≤ PROGPOW_CACHE_WORDS / 2 := by omega
    show cDagStep lookup m (cDagAux lookup m) j = _
    rw [cDagStep, dif_pos hlt]
    simp only [updFn]
    by_cases hv1 : j.val = 2 * m + 1
    · rw [if_pos (Fin.ext hv1), if_pos (by omega)]
      congr 1
      omega
    · rw [if_neg (fun hh2 => hv1 (by rw [hh2]))]
      by_cases hv2 : j.val = 2 * m
      · rw [if_pos (Fin.ext hv2), if_pos (by omega)]
        congr 1
        omega
      · rw [if_neg (fun hh2 => hv2 (by rw [hh2])), ih hmle j]
        rcases Nat.lt_or_ge j.val (2 * m) with h3 | h3
        · rw [if_pos h3, if_pos (by omega)]
        · rw [if_neg (by omega), if_neg (by omega)]

/-- C5: the c_dag priming loop sets, for every even i with 0 ≤ i < 4096,
c_dag[i] = lookup(2 i) and c_dag[i+1] = lookup(2 i + 1); the virtual-DAG
words read are therefore the pairs 2 i, 2 i + 1 with 2 i ≡ 0 mod 4 — pairs
at stride 4, not the contiguous first 4096 words. -/
theorem C5_cdag_priming (lookup : Nat → Nat) (i : Nat)
    (h : i < PROGPOW_CACHE_WORDS) (he : i % 2 = 0) :
    cDagPrime lookup ⟨i, h⟩ = lookup (2 * i) ∧
    cDagPrime lookup
        ⟨i + 1, by have hc : PROGPOW_CACHE_WORDS = 4096 := rfl; omega⟩ =
      lookup (2 * i + 1) ∧
    2 * i % 4 = 0 ∧ (2 * i + 1) % 4 = 1 := by
  have hc : PROGPOW_CACHE_WORDS = 4096 := rfl
  have hcw : PROGPOW_CACHE_WORDS / 2 = 2048 := rfl
  refine ⟨?_, ?_, by omega, by omega⟩
  · rw [show cDagPrime lookup = cDagAux lookup (PROGPOW_CACHE_WORDS / 2) from rfl,
      cDagAux_spec lookup _ (le_refl _)]
    simp only [show ((⟨i, h⟩ : Fin PROGPOW_CACHE_WORDS)).val = i from rfl]
    rw [if_pos (by omega)]
    congr 1
    omega
  · rw [show cDagPrime lookup = cDagAux lookup (PROGPOW_CACHE_WORDS / 2) from rfl,
      cDagAux_spec lookup _ (le_refl _)]
    simp only [show ∀ hp, ((⟨i + 1, hp⟩ : Fin PROGPOW_CACHE_WORDS)).val = i + 1 from
      fun _ => rfl]
    rw [if_pos (by omega)]
    congr 1
    omega

/-- Witness for C5 at the concrete even index 6 with the identity lookup:
c_dag[6] = lookup 12 and c_dag[7] = lookup 13. -/
theorem C5_cdag_priming_witness :
    (6 < PROGPOW_CACHE_WORDS ∧ 6 % 2 = 0) ∧
    (cDagPrime (fun x => x) ⟨6, by decide⟩ = 12 ∧
      cDagPrime (fun x => x) ⟨7, by decide⟩ = 13 ∧
      2 * 6 % 4 = 0 ∧ (2 * 6 + 1) % 4 = 1) :=
  ⟨⟨by decide, by decide⟩, C5_cdag_priming (fun x => x) 6 (by decide) (by decide)⟩

/-- The cache step advances mix_seq_cnt by exactly one. -/
theorem cacheStep_cnt (cDag : Fin PROGPOW_CACHE_WORDS → Nat)
    (ms : Fin PROGPOW_REGS → Fin PROGPOW_REGS) (st : LaneState) :
    (cacheStep cDag ms st).cnt = st.cnt + 1 := rfl

/-- The math step advances mix_seq_cnt by exactly one. -/
theorem mathStep_cnt (ms : Fin PROGPOW_REGS → Fin PROGPOW_REGS) (st : LaneState) :
    (mathStep ms st).cnt = st.cnt + 1 := rfl

/-- Every inner iteration with i < 8 runs both the cache and the math step,
advancing mix_seq_cnt by exactly two. -/
theorem laneIter_cnt (cDag : Fin PROGPOW_CACHE_WORDS → Nat)
    (ms : Fin PROGPOW_REGS → Fin PROGPOW_REGS) (st : LaneState) (i : Nat)
    (h : i < 8) :
    (laneIter cDag ms st i).cnt = st.cnt + 2 := by
  have h1 : i < PROGPOW_CNT_CACHE := h
  have h2 : i < PROGPOW_CNT_MATH := h
  simp only [laneIter, if_pos h1, if_pos h2, mathStep_cnt, cacheStep_cnt]

/-- Folding inner iterations over indices below 8 advances mix_seq_cnt by two
per iteration. -/
theorem foldl_laneIter_cnt (cDag : Fin PROGPOW_CACHE_WORDS → Nat)
    (ms : Fin PROGPOW_REGS → Fin PROGPOW_REGS) :
    ∀ l : List Nat, (∀ i ∈ l, i < 8) → ∀ st : LaneState,
      (List.foldl (laneIter cDag ms) st l).cnt = st.cnt + 2 * l.length := by
  intro l
  induction l with
  | nil =>
    intro _ st
    simp
  | cons a t ih =>
    intro hmem st
    rw [List.foldl_cons, ih (fun i hi => hmem i (List.mem_cons_of_mem a hi)),
      laneIter_cnt cDag ms st a (hmem a (List.mem_cons_self a t))]
    simp only [List.length_cons]
    omega

/-- The per-lane body always ends with mix_seq_cnt = 17: sixteen increments
from the inner loop plus one from the final high-half merge (the low-half
merge writes register 0 without consuming mix_seq). -/
theorem progpowLoopLane_cnt (seed data64 : Nat) (cDag : Fin PROGPOW_CACHE_WORDS → Nat)
    (row : Fin PROGPOW_REGS → Nat) :
    (progpowLoopLane seed data64 cDag row).cnt = 17 := by
  show (List.foldl (laneIter cDag (progpow_init seed).2)
      ⟨row, (progpow_init seed).1, 0⟩
      (List.range (Nat.max PROGPOW_CNT_CACHE PROGPOW_CNT_MATH))).cnt + 1 = 17
  rw [show Nat.max PROGPOW_CNT_CACHE PROGPOW_CNT_MATH = 8 from rfl]
  rw [foldl_laneIter_cnt cDag (progpow_init seed).2 (List.range 8)
    (fun i hi => List.mem_range.mp hi) ⟨row, (progpow_init seed).1, 0⟩]
  rfl

/-- C2 (amended): in every outer iteration of progpow_loop, each lane draws
17 destinations through mix_seq — 8 cache merges, 8 math merges and 1 final
merge; the other final merge writes register 0 directly without consuming
mix_seq — so mix_seq_cnt ends at exactly 17, which is at least 10; and since
17 mod 16 = 1, the first entry of mix_seq is drawn as a destination twice
and the other fifteen entries once. -/
theorem C2_mix_seq_cnt :
    ∀ (seed data64 : Nat) (cDag : Fin PROGPOW_CACHE_WORDS → Nat)
      (row : Fin PROGPOW_REGS → Nat),
      (progpowLoopLane seed data64 cDag row).cnt = 17 ∧
      10 ≤ (progpowLoopLane seed data64 cDag row).cnt ∧
      ∀ p : Fin PROGPOW_REGS,
        ((List.range 17).map (fun c => c % PROGPOW_REGS)).count p.val =
          if p.val = 0 then 2 else 1 := by
  intro seed data64 cDag row
  refine ⟨progpowLoopLane_cnt seed data64 cDag row, ?_, by decide⟩
  rw [progpowLoopLane_cnt seed data64 cDag row]
  omega

/-- C2 counterexample: at a concrete input, the number of destination writes
drawn through mix_seq in one lane body — the final mix_seq_cnt — is 17, not
the claimed 18. -/
theorem C2_not_18 :
    (progpowLoopLane 0 0 (fun _ => 0) (fun _ => 0)).cnt ≠ 18 := by
  rw [progpowLoopLane_cnt 0 0 (fun _ => 0) (fun _ => 0)]
  omega

/-- When data_size = 0, any positive number of main-loop iterations fails:
the first progpow_loop call divides by zero. -/
theorem runLoopsFrom_none (seed : Nat) (cDag : Fin PROGPOW_CACHE_WORDS → Nat)
    (lookup : Nat → Nat) (ds : Nat) (hds : ds = 0) :
    ∀ n i m, n ≠ 0 → runLoopsFrom seed cDag lookup ds i n m = none := by
  subst hds
  intro n i m hn
  cases n with
  | zero => exact absurd rfl hn
  | succ k =>
    show (match progpow_loop seed i m cDag lookup 0 with
      | none => none
      | some m2 => runLoopsFrom seed cDag lookup 0 (i + 1) k m2) = none
    rw [progpow_loop, if_pos rfl]

/-- When data_size is nonzero, every run of the main loop succeeds. -/
theorem runLoopsFrom_isSome (seed : Nat) (cDag : Fin PROGPOW_CACHE_WORDS → Nat)
    (lookup : Nat → Nat) (ds : Nat) (hds : ds ≠ 0) :
    ∀ n i m, (runLoopsFrom seed cDag lookup ds i n m).isSome := by
  intro n
  induction n with
  | zero =>
    intro i m
    rfl
  | succ k ih =>
    intro i m
    show (match progpow_loop seed i m cDag lookup ds with
      | none => none
      | some m2 => runLoopsFrom seed cDag lookup ds (i + 1) k m2).isSome
    rw [progpow_loop, if_neg hds]
    exact ih (i + 1) _

/-- C1 (amended): progpow_light completes — every array index in the call is
in range by construction and no modulo fails — provided
data_size = dataset_size_bytes / PROGPOW_MIX_BYTES is nonzero, i.e. provided
dataset_size_bytes ≥ 256.  The unrestricted claim fails: for
dataset_size_bytes < 256 the `% data_size` in progpow_loop divides by zero
(see the counterexample theorem). -/
theorem C1_light_total (hh : Fin 32 → Nat) (nonce size bn : Nat)
    (lookup : Nat → Nat) (h : size / PROGPOW_MIX_BYTES ≠ 0) :
    (progpow_light hh nonce size bn lookup).isSome := by
  have hs := runLoopsFrom_isSome (bn / ETHASH_EPOCH_LENGTH * ETHASH_EPOCH_LENGTH)
    (cDagPrime lookup) lookup (size / PROGPOW_MIX_BYTES) h PROGPOW_CNT_MEM 0
    (fun l => fill_mix (keccak_f800_short hh nonce (fun _ => 0)) l.val)
  obtain ⟨mf, hmf⟩ := Option.isSome_iff_exists.mp hs
  show (match runLoopsFrom (bn / ETHASH_EPOCH_LENGTH * ETHASH_EPOCH_LENGTH)
      (cDagPrime lookup) lookup (size / PROGPOW_MIX_BYTES) 0 PROGPOW_CNT_MEM
      (fun l => fill_mix (keccak_f800_short hh nonce (fun _ => 0)) l.val) with
    | none => none
    | some mixF =>
      some (keccak_f800_long hh (keccak_f800_short hh nonce (fun _ => 0))
          (foldLanes (laneResults mixF)),
        leBytes32 (foldLanes (laneResults mixF)))).isSome
  rw [hmf]
  rfl

/-- Witness for C1 at dataset_size_bytes = 256 (data_size = 1). -/
theorem C1_light_total_witness :
    256 / PROGPOW_MIX_BYTES ≠ 0 ∧
    (progpow_light (fun _ => 0) 0 256 0 (fun _ => 0)).isSome :=
  ⟨by decide, C1_light_total (fun _ => 0) 0 256 0 (fun _ => 0) (by decide)⟩

/-- C1 counterexample: with dataset_size_bytes = 0 (any value below 256
behaves the same), progpow_light does not complete: data_size = 0 / 256 = 0
and the first progpow_loop call computes `% 0`, a Rust panic, modelled as
`none`. -/
theorem C1_fails_at_zero_size :
    progpow_light (fun _ => 0) 0 0 0 (fun _ => 0) = none := by
  show (match runLoopsFrom (0 / ETHASH_EPOCH_LENGTH * ETHASH_EPOCH_LENGTH)
      (cDagPrime (fun _ => 0)) (fun _ => 0) (0 / PROGPOW_MIX_BYTES) 0 PROGPOW_CNT_MEM
      (fun l => fill_mix (keccak_f800_short (fun _ => 0) 0 (fun _ => 0)) l.val) with
    | none => none
    | some mixF =>
      some (keccak_f800_long (fun _ => 0)
          (keccak_f800_short (fun _ => 0) 0 (fun _ => 0))
          (foldLanes (laneResults mixF)),
        leBytes32 (foldLanes (laneResults mixF)))) = none
  rw [runLoopsFrom_none _ _ _ _ (by decide) PROGPOW_CNT_MEM 0 _ (by decide)]

/-- C3: in progpow_light the Keccak-derived seed both fills every lane's
initial mix row and is the nonce argument of the final keccak_f800_long call,
while every one of the 64 progpow_loop calls receives
epoch_start = (block_number / 30000) * 30000 as its seed argument; hence the
original nonce influences the output only through keccak_f800_short, and the
block number only through its epoch. -/
theorem C3_seed_usage :
    ∀ (hh : Fin 32 → Nat) (nonce nonce2 size bn bn2 : Nat) (lookup : Nat → Nat),
      (progpow_light hh nonce size bn lookup =
        progpowLightWithSeed hh (keccak_f800_short hh nonce (fun _ => 0))
          (bn / ETHASH_EPOCH_LENGTH * ETHASH_EPOCH_LENGTH) size lookup) ∧
      (keccak_f800_short hh nonce (fun _ => 0) =
          keccak_f800_short hh nonce2 (fun _ => 0) →
        progpow_light hh nonce size bn lookup =
          progpow_light hh nonce2 size bn lookup) ∧
      (bn / ETHASH_EPOCH_LENGTH = bn2 / ETHASH_EPOCH_LENGTH →
        progpow_light hh nonce size bn lookup =
          progpow_light hh nonce size bn2 lookup) := by
  intro hh nonce nonce2 size bn bn2 lookup
  refine ⟨rfl, ?_, ?_⟩
  · intro hseed
    show progpowLightWithSeed hh (keccak_f800_short hh nonce (fun _ => 0))
        (bn / ETHASH_EPOCH_LENGTH * ETHASH_EPOCH_LENGTH) size lookup =
      progpowLightWithSeed hh (keccak_f800_short hh nonce2 (fun _ => 0))
        (bn / ETHASH_EPOCH_LENGTH * ETHASH_EPOCH_LENGTH) size lookup
    rw [hseed]
  · intro hepoch
    show progpowLightWithSeed hh (keccak_f800_short hh nonce (fun _ => 0))
        (bn / ETHASH_EPOCH_LENGTH * ETHASH_EPOCH_LENGTH) size lookup =
      progpowLightWithSeed hh (keccak_f800_short hh nonce (fun _ => 0))
        (bn2 / ETHASH_EPOCH_LENGTH * ETHASH_EPOCH_LENGTH) size lookup
    rw [hepoch]

/-- Witness for C3 at concrete inputs (the congruence hypotheses hold
reflexively for equal nonces and equal epochs). -/
theorem C3_seed_usage_witness :
    (keccak_f800_short (fun _ => 0) 0 (fun _ => 0) =
        keccak_f800_short (fun _ => 0) 0 (fun _ => 0) ∧
      (5 : Nat) / ETHASH_EPOCH_LENGTH = 7 / ETHASH_EPOCH_LENGTH) ∧
    (progpow_light (fun _ => 0) 0 256 5 (fun _ => 0) =
        progpowLightWithSeed (fun _ => 0)
          (keccak_f800_short (fun _ => 0) 0 (fun _ => 0))
          (5 / ETHASH_EPOCH_LENGTH * ETHASH_EPOCH_LENGTH) 256 (fun _ => 0) ∧
      progpow_light (fun _ => 0) 0 256 5 (fun _ => 0) =
        progpow_light (fun _ => 0) 0 256 5 (fun _ => 0) ∧
      progpow_light (fun _ => 0) 0 256 5 (fun _ => 0) =
        progpow_light (fun _ => 0) 0 256 7 (fun _ => 0)) :=
  ⟨⟨rfl, by decide⟩,
    (C3_seed_usage (fun _ => 0) 0 0 256 5 7 (fun _ => 0)).1,
    (C3_seed_usage (fun _ => 0) 0 0 256 5 7 (fun _ => 0)).2.1 rfl,
    (C3_seed_usage (fun _ => 0) 0 0 256 5 7 (fun _ => 0)).2.2 (by decide)⟩

/-- Truncation always lands below 2^32. -/
theorem u32_lt (x : Nat) : u32 x < 2 ^ 32 := by
  show x % 4294967296 < 2 ^ 32
  have h32 : (2 : Nat) ^ 32 = 4294967296 := by norm_num
  rw [h32]
  exact Nat.mod_lt _ (by norm_num)

/-- Rotations land below 2^32. -/
theorem rotl32_lt (a n : Nat) : rotl32 a n < 2 ^ 32 := u32_lt _

/-- A fold preserves any invariant preserved by each step. -/
theorem foldl_preserve {α β : Type} (P : α → Prop) (f : α → β → α)
    (hf : ∀ a b, P a → P (f a b)) :
    ∀ (l : List β) (a : α), P a → P (List.foldl f a l) := by
  intro l
  induction l with
  | nil =>
    intro a ha
    exact ha
  | cons b t ih =>
    intro a ha
    rw [List.foldl_cons]
    exact ih _ (hf a b ha)

/-- Updating with a bounded value keeps a state bounded. -/
theorem updN_lt (f : Nat → Nat) (k v : Nat) (h : ∀ i, f i < 2 ^ 32)
    (hv : v < 2 ^ 32) : ∀ i, updN f k v i < 2 ^ 32 := by
  intro i
  unfold updN
  split
  · exact hv
  · exact h i

/-- The Theta column parities are bounded. -/
theorem thetaBc_lt (st : Nat → Nat) (h : ∀ i, st i < 2 ^ 32) (i : Nat) :
    thetaBc st i < 2 ^ 32 :=
  Nat.xor_lt_two_pow
    (Nat.xor_lt_two_pow
      (Nat.xor_lt_two_pow (Nat.xor_lt_two_pow (h i) (h _)) (h _)) (h _)) (h _)

/-- Theta keeps the state bounded. -/
theorem theta_lt (st : Nat → Nat) (h : ∀ i, st i < 2 ^ 32) (k : Nat) :
    theta st k < 2 ^ 32 :=
  Nat.xor_lt_two_pow (h k)
    (Nat.xor_lt_two_pow (thetaBc_lt st h _) (rotl32_lt _ _))

/-- Rho-Pi keeps the state bounded. -/
theorem rhoPi_lt (st : Nat → Nat) (h : ∀ i, st i < 2 ^ 32) (k : Nat) :
    rhoPi st k < 2 ^ 32 := by
  refine (foldl_preserve
    (fun acc : (Nat → Nat) × Nat => (∀ i, acc.1 i < 2 ^ 32) ∧ acc.2 < 2 ^ 32)
    _ ?_ (List.range 24) (st, st 1) ⟨h, h 1⟩).1 k
  intro a b ha
  exact ⟨updN_lt a.1 _ _ ha.1 (rotl32_lt _ _), ha.1 _⟩

/-- The u32 complement is bounded. -/
theorem u32compl_lt (x : Nat) : u32compl x < 2 ^ 32 :=
  Nat.xor_lt_two_pow (u32_lt x) (by norm_num)

/-- Chi keeps the state bounded. -/
theorem chi_lt (st : Nat → Nat) (h : ∀ i, st i < 2 ^ 32) (k : Nat) :
    chi st k < 2 ^ 32 :=
  Nat.xor_lt_two_pow (h k)
    (Nat.lt_of_le_of_lt Nat.and_le_left (u32compl_lt _))

/-- Iota keeps the state bounded. -/
theorem iota_lt (rc : Nat) (st : Nat → Nat) (h : ∀ i, st i < 2 ^ 32) (k : Nat) :
    iota rc st k < 2 ^ 32 :=
  updN_lt st 0 _ h (Nat.xor_lt_two_pow (h 0) (u32_lt rc)) k

/-- One Keccak round keeps the state bounded. -/
theorem round_lt (rc : Nat) (st : Nat → Nat) (h : ∀ i, st i < 2 ^ 32) (k : Nat) :
    keccak_f800_round rc st k < 2 ^ 32 :=
  iota_lt rc _ (fun i => chi_lt _ (fun i2 => rhoPi_lt _ (theta_lt st h) i2) i) k

/-- The prepared Keccak state is bounded. -/
theorem keccakPrep_lt (hh : Fin 32 → Nat) (nonce : Nat) (res : Fin 8 → Nat) :
    ∀ k, keccakPrep hh nonce res k < 2 ^ 32 := by
  unfold keccakPrep
  refine foldl_preserve (fun s : Nat → Nat => ∀ i, s i < 2 ^ 32) _ ?_
    (List.finRange 4) _ ?_
  · intro a b ha
    exact updN_lt _ _ _ ha (u32_lt _)
  · refine updN_lt _ _ _ (updN_lt _ _ _ ?_ (u32_lt _)) (u32_lt _)
    refine foldl_preserve (fun s : Nat → Nat => ∀ i, s i < 2 ^ 32) _ ?_
      (List.finRange 8) _ ?_
    · intro a b ha
      exact updN_lt _ _ _ ha (u32_lt _)
    · intro i
      norm_num

/-- The Keccak state after the 22 rounds is bounded. -/
theorem keccakSt_lt (hh : Fin 32 → Nat) (nonce : Nat) (res : Fin 8 → Nat) (k : Nat) :
    keccakRounds KECCAKF_RNDC (keccakPrep hh nonce res) k < 2 ^ 32 := by
  have h21 : ∀ i, ((List.range 21).foldl
      (fun s r => keccak_f800_round (KECCAKF_RNDC r) s)
      (keccakPrep hh nonce res)) i < 2 ^ 32 :=
    foldl_preserve (fun s : Nat → Nat => ∀ i, s i < 2 ^ 32) _
      (fun a b ha => round_lt _ a ha) (List.range 21) _ (keccakPrep_lt hh nonce res)
  exact round_lt _ _ h21 k

/-- A u32 value is recovered from its four little-endian bytes. -/
theorem word_of_bytes (w : Nat) (hw : w < 2 ^ 32) :
    w % 256 + ((w >>> 8) % 256) * 256 + ((w >>> 16) % 256) * 65536 +
      ((w >>> 24) % 256) * 16777216 = w := by
  rw [Nat.shiftRight_eq_div_pow, Nat.shiftRight_eq_div_pow, Nat.shiftRight_eq_div_pow]
  have h8 : (2 : Nat) ^ 8 = 256 := by norm_num
  have h16 : (2 : Nat) ^ 16 = 65536 := by norm_num
  have h24 : (2 : Nat) ^ 24 = 16777216 := by norm_num
  have h32 : (2 : Nat) ^ 32 = 4294967296 := by norm_num
  rw [h8, h16, h24]
  rw [h32] at hw
  omega

/-- C10: keccak_f800_short and keccak_f800_long perform the identical state
preparation and the identical 22 rounds, so the u64 returned by the short
form equals (w0 <<< 32) ||| w1, where w0 and w1 are recombined from the first
two little-endian u32 words — bytes 0..3 and 4..7 — of the long form's
32-byte output on the same arguments. -/
theorem C10_short_long_agree (hh : Fin 32 → Nat) (nonce : Nat) (res : Fin 8 → Nat) :
    keccak_f800_short hh nonce res =
      ((keccak_f800_long hh nonce res ⟨0, by decide⟩ +
        keccak_f800_long hh nonce res ⟨1, by decide⟩ * 256 +
        keccak_f800_long hh nonce res ⟨2, by decide⟩ * 65536 +
        keccak_f800_long hh nonce res ⟨3, by decide⟩ * 16777216) <<< 32) |||
      (keccak_f800_long hh nonce res ⟨4, by decide⟩ +
        keccak_f800_long hh nonce res ⟨5, by decide⟩ * 256 +
        keccak_f800_long hh nonce res ⟨6, by decide⟩ * 65536 +
        keccak_f800_long hh nonce res ⟨7, by decide⟩ * 16777216) := by
  have hb := keccakSt_lt hh nonce res
  show (keccakRounds KECCAKF_RNDC (keccakPrep hh nonce res) 0 <<< 32) |||
      keccakRounds KECCAKF_RNDC (keccakPrep hh nonce res) 1 =
    ((keccakRounds KECCAKF_RNDC (keccakPrep hh nonce res) 0 % 256 +
      ((keccakRounds KECCAKF_RNDC (keccakPrep hh nonce res) 0 >>> 8) % 256) * 256 +
      ((keccakRounds KECCAKF_RNDC (keccakPrep hh nonce res) 0 >>> 16) % 256) * 65536 +
      ((keccakRounds KECCAKF_RNDC (keccakPrep hh nonce res) 0 >>> 24) % 256) *
        16777216) <<< 32) |||
    (keccakRounds KECCAKF_RNDC (keccakPrep hh nonce res) 1 % 256 +
      ((keccakRounds KECCAKF_RNDC (keccakPrep hh nonce res) 1 >>> 8) % 256) * 256 +
      ((keccakRounds KECCAKF_RNDC (keccakPrep hh nonce res) 1 >>> 16) % 256) * 65536 +
      ((keccakRounds KECCAKF_RNDC (keccakPrep hh nonce res) 1 >>> 24) % 256) *
        16777216)
  rw [word_of_bytes _ (hb 0), word_of_bytes _ (hb 1)]

end Theorems
